import Mathlib

/-!
Verification of the tambo sound library's enabled-state propagation and
gain-envelope control system, as a shallow embedding of the JavaScript
source (SoundGenerator, NoiseGenerator, PitchedPopGenerator, and the
stubbed audio context).

Modelling conventions:
- Boolean axon Properties are modelled as identifiers (Nat) together with a
  value assignment (Nat -> Bool); the automatically created
  locallyEnabledProperty gets identifier 0.
- AudioParam scheduling calls are recorded as a command log; times and
  levels are rationals.
- The audio context's currentTime is passed explicitly to each operation
  that reads it.
-/

set_option autoImplicit false

namespace Tambo

/-- A scheduling command issued on the master gain node's gain AudioParam.
Each constructor mirrors one Web Audio method used by SoundGenerator:
setValueAtTime, linearRampToValueAtTime, setTargetAtTime. -/
inductive GainCmd where
  | setValue (v : ℚ) (t : ℚ)
  | linearRamp (v : ℚ) (t : ℚ)
  | setTarget (v : ℚ) (t : ℚ) (tc : ℚ)
deriving DecidableEq

/-- Modelled from the spec: soundConstants.js is not under src/.  The spec
says enable/disable transitions ramp over a fixed short duration; the exact
value is immaterial to the claims, only that it is one fixed constant. -/
def DEFAULT_LINEAR_GAIN_CHANGE_TIME : ℚ := 1/10

/-- Modelled from the spec: soundConstants.js is not under src/.  The spec
says setOutputLevel has a nonzero default time constant (exponential
approach); only its nonzero-ness matters to the claims. -/
def DEFAULT_PARAM_CHANGE_TIME_CONSTANT : ℚ := 3/200

/-- State of a SoundGenerator (SoundGenerator class in the source).
`store` is the value assignment of all boolean Properties in scope;
`members` is the ObservableArray enableControlProperties (identifiers, in
insertion order); `fullyEnabled` is fullyEnabledProperty.value;
`outputLevel` is the private _outputLevel; `gainLog` records every
scheduling call made on masterGainNode.gain; `connectionList` mirrors the
connectionList array (sinks as identifiers). -/
structure SG where
  store : Nat → Bool
  members : List Nat
  fullyEnabled : Bool
  outputLevel : ℚ
  gainLog : List GainCmd
  connectionList : List Nat

/-- The aggregate computed by updateFullyEnabledState:
_.every(enableControlProperties.getArray(), p => p.value). -/
def allEnabled (members : List Nat) (store : Nat → Bool) : Bool :=
  members.all store

/-- The fullyEnabledProperty.link listener body (source lines 168-183):
pin the gain to the nominal pre-transition level at `now`, then schedule a
linear ramp to the nominal post-transition level. `fullyEnabled` is the new
value passed to the listener. -/
def fullyEnabledListener (fullyEnabled : Bool) (outputLevel : ℚ) (now : ℚ) : List GainCmd :=
  let previousGainSetting : ℚ := if fullyEnabled then 0 else outputLevel
  let newGainSetting : ℚ := if fullyEnabled then outputLevel else 0
  [GainCmd.setValue previousGainSetting now,
   GainCmd.linearRamp newGainSetting (now + DEFAULT_LINEAR_GAIN_CHANGE_TIME)]

/-- updateFullyEnabledState after construction: recompute
fullyEnabledProperty.value; a BooleanProperty only notifies its listeners
when the value actually changes, in which case the linked gain listener
fires. -/
def updateFullyEnabledState (now : ℚ) (s : SG) : SG :=
  { s with
    fullyEnabled := allEnabled s.members s.store,
    gainLog := s.gainLog ++
      (if allEnabled s.members s.store = s.fullyEnabled then []
       else fullyEnabledListener (allEnabled s.members s.store) s.outputLevel now) }

/-- updateFullyEnabledState as it runs during construction, before the
fullyEnabledProperty.link of the gain listener (line 168) exists: only the
derived value is recomputed, no gain commands are issued. -/
def updateFullyEnabledValueOnly (s : SG) : SG :=
  { s with fullyEnabled := allEnabled s.members s.store }

/-- addEnableControlProperty after construction: push onto the
ObservableArray; the addItemAddedListener links updateFullyEnabledState to
the new Property, and Property.link invokes the listener immediately. -/
def addEnableControlProperty (id : Nat) (now : ℚ) (s : SG) : SG :=
  updateFullyEnabledState now { s with members := s.members ++ [id] }

/-- addEnableControlProperty as called during construction (lines 143-153),
while the gain listener is not yet linked. -/
def addEnableControlPropertyCtor (id : Nat) (s : SG) : SG :=
  updateFullyEnabledValueOnly { s with members := s.members ++ [id] }

/-- removeEnableControlProperty: ObservableArray.remove removes the first
matching entry (no-op when absent); the checkAndRemove listener unlinks
updateFullyEnabledState from the removed Property (modelled by the loss of
membership) but calls nothing else: fullyEnabledProperty is NOT
recomputed. -/
def removeEnableControlProperty (id : Nat) (s : SG) : SG :=
  { s with members := s.members.erase id }

/-- Setting the value of boolean Property `id`.  An axon Property notifies
its listeners only when the value changes; updateFullyEnabledState is
linked to the Property exactly while it is a member of
enableControlProperties. -/
def setProp (id : Nat) (b : Bool) (now : ℚ) (s : SG) : SG :=
  if s.store id = b then s
  else if s.members.contains id then
    updateFullyEnabledState now { s with store := fun n => if n = id then b else s.store n }
  else
    { s with store := fun n => if n = id then b else s.store n }

/-- The locallyEnabled setter: writes locallyEnabledProperty (identifier 0). -/
def setLocallyEnabled (b : Bool) (now : ℚ) (s : SG) : SG :=
  setProp 0 b now s

/-- The gain commands issued by setOutputLevel (source lines 231-243) for a
given effective time constant and current fullyEnabled value. -/
def setOutputLevelCmds (level : ℚ) (tc : ℚ) (now : ℚ) (fullyEnabled : Bool) : List GainCmd :=
  if tc = 0 then
    if level = 0 ∨ fullyEnabled then [GainCmd.setValue level now] else []
  else
    if fullyEnabled then [GainCmd.setTarget level now tc] else []

/-- setOutputLevel: always stores the new _outputLevel; schedules gain
changes per setOutputLevelCmds.  `none` means the timeConstant argument was
omitted (JS undefined), in which case the default applies. -/
def setOutputLevel (level : ℚ) (timeConstant : Option ℚ) (now : ℚ) (s : SG) : SG :=
  { s with
    outputLevel := level,
    gainLog := s.gainLog ++
      setOutputLevelCmds level (timeConstant.getD DEFAULT_PARAM_CHANGE_TIME_CONSTANT) now
        s.fullyEnabled }

/-- getOutputLevel: returns the private _outputLevel. -/
def getOutputLevel (s : SG) : ℚ :=
  s.outputLevel

/-- connect: masterGainNode.connect(sink) and connectionList.push(sink). -/
def connect (sink : Nat) (s : SG) : SG :=
  { s with connectionList := s.connectionList ++ [sink] }

/-- disconnect: masterGainNode.disconnect(sink) and
connectionList = _.without(connectionList, sink); lodash's without removes
every entry equal to sink. -/
def disconnect (sink : Nat) (s : SG) : SG :=
  { s with connectionList := s.connectionList.filter (fun p => p ≠ sink) }

/-- isConnectedTo: connectionList.indexOf(sink) >= 0. -/
def isConnectedTo (sink : Nat) (s : SG) : Bool :=
  s.connectionList.contains sink

/-- The successful construction path of SoundGenerator (after the
precondition check): wire the provided enableControlProperties, create and
add locallyEnabledProperty (identifier 0, initial value true), create the
master gain node and set its gain to the initial output level, then link
the fullyEnabledProperty gain listener, which fires once immediately. -/
def mkSG (initialOutputLevel : ℚ) (enableControlProperties : List Nat)
    (store0 : Nat → Bool) (t0 : ℚ) : SG :=
  let s0 : SG :=
    { store := store0, members := [], fullyEnabled := true,
      outputLevel := initialOutputLevel, gainLog := [], connectionList := [] }
  let s1 := enableControlProperties.foldl (fun s id => addEnableControlPropertyCtor id s) s0
  let s2 : SG := { s1 with store := fun n => if n = 0 then true else s1.store n }
  let s3 := addEnableControlPropertyCtor 0 s2
  let s4 : SG := { s3 with gainLog := s3.gainLog ++ [GainCmd.setValue initialOutputLevel t0] }
  { s4 with gainLog := s4.gainLog ++ fullyEnabledListener s4.fullyEnabled s4.outputLevel t0 }

/-- The SoundGenerator constructor.  The assert on line 94 checks
initialOutputLevel >= 0 before any audio node exists; the first component
counts the audio nodes created by the constructor call (the master gain
node is the only one). -/
def mkSoundGenerator (initialOutputLevel : ℚ) (enableControlProperties : List Nat)
    (store0 : Nat → Bool) (t0 : ℚ) : Nat × Except String SG :=
  if initialOutputLevel < 0 then
    (0, Except.error "initial output level must be positive")
  else
    (1, Except.ok (mkSG initialOutputLevel enableControlProperties store0 t0))

/-- Nominal settled value of one gain command at query time `t`, given the
value `v` implied by the earlier commands: a command whose start time has
passed contributes its final value (a ramp is credited once its end time is
reached; an exponential approach is credited with its target). -/
def gainCmdValueAt (t : ℚ) (v : ℚ) (cmd : GainCmd) : ℚ :=
  match cmd with
  | GainCmd.setValue w tw => if tw ≤ t then w else v
  | GainCmd.linearRamp w tw => if tw ≤ t then w else v
  | GainCmd.setTarget w tw _tc => if tw ≤ t then w else v

/-- Nominal gain implied by a command log at time `t` (a fresh GainNode's
gain defaults to 1). -/
def scheduledGainAt (log : List GainCmd) (t : ℚ) : ℚ :=
  log.foldl (gainCmdValueAt t) 1

/-- The documented meaning of fullyEnabledProperty: it equals the
conjunction of the current member Property values. -/
def EnabledInv (s : SG) : Prop :=
  s.fullyEnabled = allEnabled s.members s.store

/-- One user-visible operation on the enable-control machinery of a live
SoundGenerator: add or remove an enable control Property, or set a
Property's value. -/
inductive ECPOp where
  | add (id : Nat) (now : ℚ)
  | remove (id : Nat)
  | set (id : Nat) (b : Bool) (now : ℚ)
deriving DecidableEq

/-- Interpretation of one ECPOp. -/
def applyECPOp (s : SG) (op : ECPOp) : SG :=
  match op with
  | ECPOp.add id now => addEnableControlProperty id now s
  | ECPOp.remove id => removeEnableControlProperty id s
  | ECPOp.set id b now => setProp id b now s

/-- Run a sequence of enable-control operations. -/
def runECPOps (ops : List ECPOp) (s : SG) : SG :=
  ops.foldl applyECPOp s

/-- Whether an operation is a removal. -/
def ECPOp.isRemove : ECPOp → Bool
  | ECPOp.remove _ => true
  | _ => false

/-- A scheduling command issued on a pooled voice of PitchedPopGenerator:
the voice index is recorded with each command (gain.cancelScheduledValues,
oscillator.frequency.setValueAtTime, gain.setValueAtTime,
oscillator.frequency.linearRampToValueAtTime, gain.setTargetAtTime). -/
inductive VoiceCmd where
  | cancelScheduledValues (voice : Nat) (t : ℚ)
  | oscSetFrequency (voice : Nat) (freq : ℚ) (t : ℚ)
  | gainSetValue (voice : Nat) (v : ℚ) (t : ℚ)
  | oscLinearRampFrequency (voice : Nat) (freq : ℚ) (t : ℚ)
  | gainSetTarget (voice : Nat) (v : ℚ) (t : ℚ) (tc : ℚ)
deriving DecidableEq

/-- The pooled voice a command was issued on. -/
def VoiceCmd.voice : VoiceCmd → Nat
  | VoiceCmd.cancelScheduledValues v _ => v
  | VoiceCmd.oscSetFrequency v _ _ => v
  | VoiceCmd.gainSetValue v _ _ => v
  | VoiceCmd.oscLinearRampFrequency v _ _ => v
  | VoiceCmd.gainSetTarget v _ _ _ => v

/-- ENVELOPE_TIME_CONSTANT of PitchedPopGenerator (0.005). -/
def ENVELOPE_TIME_CONSTANT : ℚ := 1/200

/-- DEFAULT_POP_DURATION of PitchedPopGenerator (0.02 seconds). -/
def DEFAULT_POP_DURATION : ℚ := 1/50

/-- DEFAULT_NUM_POP_GENERATORS of PitchedPopGenerator. -/
def DEFAULT_NUM_POP_GENERATORS : Nat := 8

/-- State of a PitchedPopGenerator: the inherited SoundGenerator state, the
configured pitch range and pool size, the round-robin cursor
nextSoundSourceIndex, and the log of commands issued on pooled voices. -/
structure PPG where
  sg : SG
  pitchMin : ℚ
  pitchMax : ℚ
  numPopGenerators : Nat
  nextSoundSourceIndex : Nat
  voiceLog : List VoiceCmd

/-- Voice initialisation performed by the PitchedPopGenerator constructor:
each pooled voice's oscillator frequency is set to the pitch range minimum
and its gain to 0. -/
def mkPPGVoiceInit (pitchMin : ℚ) (t0 : ℚ) (n : Nat) : List VoiceCmd :=
  (List.range n).flatMap
    (fun i => [VoiceCmd.oscSetFrequency i pitchMin t0, VoiceCmd.gainSetValue i 0 t0])

/-- The PitchedPopGenerator constructor: builds the SoundGenerator state
from the passed-through options, pre-allocates the voice pool, and starts
the round-robin cursor at 0. -/
def mkPPG (pitchMin pitchMax : ℚ) (numPopGenerators : Nat) (initialOutputLevel : ℚ)
    (enableControlProperties : List Nat) (store0 : Nat → Bool) (t0 : ℚ) : PPG :=
  { sg := mkSG initialOutputLevel enableControlProperties store0 t0
    pitchMin := pitchMin
    pitchMax := pitchMax
    numPopGenerators := numPopGenerators
    nextSoundSourceIndex := 0
    voiceLog := mkPPGVoiceInit pitchMin t0 numPopGenerators }

/-- The six commands playPop issues on the selected voice (source lines
120-126). -/
def popCmds (voice : Nat) (frequency : ℚ) (duration : ℚ) (now : ℚ) : List VoiceCmd :=
  [VoiceCmd.cancelScheduledValues voice now,
   VoiceCmd.oscSetFrequency voice (frequency / 2) now,
   VoiceCmd.gainSetValue voice 0 now,
   VoiceCmd.oscLinearRampFrequency voice (frequency * 2) (now + duration),
   VoiceCmd.gainSetTarget voice 1 now ENVELOPE_TIME_CONSTANT,
   VoiceCmd.gainSetTarget voice 0 (now + duration) ENVELOPE_TIME_CONSTANT]

/-- playPop: returns unchanged (ignores the request) when not fully
enabled; otherwise defaults the duration (JS `duration || DEFAULT` treats a
passed 0 as absent), interpolates the frequency across the pitch range,
plays on the voice at the cursor, and advances the cursor modulo the pool
size. -/
def playPop (relativePitch : ℚ) (duration : Option ℚ) (now : ℚ) (p : PPG) : PPG :=
  if p.sg.fullyEnabled = true then
    let d : ℚ :=
      match duration with
      | none => DEFAULT_POP_DURATION
      | some d0 => if d0 = 0 then DEFAULT_POP_DURATION else d0
    let frequency := p.pitchMin + relativePitch * (p.pitchMax - p.pitchMin)
    { p with
      nextSoundSourceIndex := (p.nextSoundSourceIndex + 1) % p.numPopGenerators,
      voiceLog := p.voiceLog ++ popCmds p.nextSoundSourceIndex frequency d now }
  else
    p

/-- Arguments of one playPop call. -/
structure PopCall where
  relativePitch : ℚ
  duration : Option ℚ
  now : ℚ
deriving DecidableEq

/-- Run a sequence of playPop calls. -/
def runPops (calls : List PopCall) (p : PPG) : PPG :=
  calls.foldl (fun q c => playPop c.relativePitch c.duration c.now q) p

/-- State of a NoiseGenerator relevant to its play state machine: the
inherited SoundGenerator state, the isPlaying flag, the current
noiseSource buffer-source node (identified by creation order) and the
count of buffer sources created so far. -/
structure NoiseGen where
  sg : SG
  isPlaying : Bool
  noiseSource : Option Nat
  sourcesCreated : Nat

/-- NoiseGenerator.start: only does something when not already playing —
creates a fresh buffer source, connects and starts it, and sets
isPlaying. -/
def NoiseGen.start (n : NoiseGen) : NoiseGen :=
  if n.isPlaying then n
  else
    { n with
      noiseSource := some n.sourcesCreated,
      sourcesCreated := n.sourcesCreated + 1,
      isPlaying := true }

/-- NoiseGenerator.stop: only does something when playing — stops and
disconnects the source, clears it, and clears isPlaying. -/
def NoiseGen.stop (n : NoiseGen) : NoiseGen :=
  if n.isPlaying then
    { n with noiseSource := none, isPlaying := false }
  else
    n

/-- The AudioParam scheduling methods appearing in this repository. -/
inductive AudioParamMethod where
  | setValueAtTime
  | setTargetAtTime
  | linearRampToValueAtTime
  | cancelScheduledValues
deriving DecidableEq

/-- The methods provided on the `gain` AudioParam of the object returned by
STUBBED_AUDIO_CONTEXT.createGain (phetAudioContext.js lines 90-101). -/
def stubGainParamMethods : List AudioParamMethod :=
  [AudioParamMethod.cancelScheduledValues,
   AudioParamMethod.setTargetAtTime,
   AudioParamMethod.setValueAtTime]

/-- The methods SoundGenerator invokes on masterGainNode.gain: the
construction-time setValueAtTime (line 157), the enable/disable listener's
setValueAtTime and linearRampToValueAtTime (lines 176-182), and
setOutputLevel's setValueAtTime and setTargetAtTime (lines 237-241). -/
def soundGeneratorGainParamCalls : List AudioParamMethod :=
  [AudioParamMethod.setValueAtTime,
   AudioParamMethod.setValueAtTime,
   AudioParamMethod.linearRampToValueAtTime,
   AudioParamMethod.setValueAtTime,
   AudioParamMethod.setTargetAtTime]

/-- Invoking a method on a stub AudioParam object: a provided method is a
silent no-op; accessing an absent method yields undefined, and calling it
throws a TypeError. -/
def stubAudioParamCall (provided : List AudioParamMethod) (m : AudioParamMethod) :
    Except String Unit :=
  if provided.contains m then Except.ok () else Except.error "TypeError: not a function"

/-- A concrete sequence of five playPop calls used as a witness input. -/
def popCallsW : List PopCall :=
  [{ relativePitch := 0, duration := none, now := 0 },
   { relativePitch := 1/2, duration := none, now := 1 },
   { relativePitch := 1, duration := some (1/10), now := 2 },
   { relativePitch := 1/4, duration := none, now := 3 },
   { relativePitch := 3/4, duration := none, now := 4 }]

/-- A concrete stopped NoiseGenerator state used as a witness input. -/
def noiseGenW : NoiseGen :=
  { sg := mkSG 1 [] (fun _ => true) 0, isPlaying := false, noiseSource := none,
    sourcesCreated := 0 }

/-- A concrete PitchedPopGenerator that is not fully enabled (its enable
control property 7 reads false), used as a witness input. -/
def ppgDisabledW : PPG := mkPPG 220 660 3 1 [7] (fun n => n == 0) 0

theorem contains_eq_true_iff_mem (l : List Nat) (a : Nat) : l.contains a = true ↔ a ∈ l := by
  simp

theorem EnabledInv_updateFullyEnabledState (now : ℚ) (s : SG) :
    EnabledInv (updateFullyEnabledState now s) :=
  rfl

theorem EnabledInv_add (id : Nat) (now : ℚ) (s : SG) :
    EnabledInv (addEnableControlProperty id now s) :=
  rfl

theorem EnabledInv_mkSG (level : ℚ) (props : List Nat) (store0 : Nat → Bool) (t0 : ℚ) :
    EnabledInv (mkSG level props store0 t0) :=
  rfl

theorem allEnabled_update_not_mem (members : List Nat) (store : Nat → Bool) (id : Nat) (b : Bool)
    (h : id ∉ members) :
    allEnabled members (fun n => if n = id then b else store n) = allEnabled members store := by
  unfold allEnabled
  induction members with
  | nil => rfl
  | cons x xs ih =>
    have hx : x ≠ id := fun hxe => h (hxe ▸ List.mem_cons_self x xs)
    have hxs : id ∉ xs := fun hmem => h (List.mem_cons_of_mem x hmem)
    simp only [List.all_cons, hx, if_false, ih hxs]

theorem EnabledInv_setProp {s : SG} (h : EnabledInv s) (id : Nat) (b : Bool) (now : ℚ) :
    EnabledInv (setProp id b now s) := by
  unfold setProp
  by_cases h1 : s.store id = b
  · simpa [h1] using h
  · simp only [h1, if_false]
    by_cases h2 : s.members.contains id = true
    · simp only [h2, if_true]
      exact EnabledInv_updateFullyEnabledState now _
    · simp only [h2, if_false]
      have hnm : id ∉ s.members := fun hm => h2 ((contains_eq_true_iff_mem _ _).mpr hm)
      unfold EnabledInv at h ⊢
      simpa [allEnabled_update_not_mem s.members s.store id b hnm] using h

theorem EnabledInv_runECPOps (ops : List ECPOp) (s : SG)
    (hnr : ∀ op ∈ ops, op.isRemove = false) (h : EnabledInv s) :
    EnabledInv (runECPOps ops s) := by
  induction ops generalizing s with
  | nil => exact h
  | cons op rest ih =>
    have hop : op.isRemove = false := hnr op (List.mem_cons_self op rest)
    have hrest : ∀ o ∈ rest, o.isRemove = false := fun o ho => hnr o (List.mem_cons_of_mem op ho)
    show EnabledInv (runECPOps rest (applyECPOp s op))
    cases op with
    | add id now => exact ih (applyECPOp s (ECPOp.add id now)) hrest (EnabledInv_add id now s)
    | remove id => simp [ECPOp.isRemove] at hop
    | set id b now => exact ih (applyECPOp s (ECPOp.set id b now)) hrest (EnabledInv_setProp h id b now)

/-- C1: for every SoundGenerator and every sequence of adds and value flips
of its enable-control properties (removals excluded — see the
counterexample, which the source's checkAndRemove listener makes
necessary), reading fullyEnabled at any point yields the logical AND of the
current values of all member properties (including the automatically added
locallyEnabled property, identifier 0), with an empty member set giving
true; the value is already correct immediately after each flip. -/
theorem fullyEnabled_eq_conjunction_without_removes
    (level : ℚ) (props : List Nat) (store0 : Nat → Bool) (t0 : ℚ) (ops : List ECPOp)
    (hnr : ∀ op ∈ ops, op.isRemove = false) :
    (runECPOps ops (mkSG level props store0 t0)).fullyEnabled =
      allEnabled (runECPOps ops (mkSG level props store0 t0)).members
        (runECPOps ops (mkSG level props store0 t0)).store :=
  EnabledInv_runECPOps ops _ hnr (EnabledInv_mkSG level props store0 t0)

/-- C1 witness: a concrete add and two flips on a freshly constructed
generator, instantiating the theorem. -/
theorem fullyEnabled_eq_conjunction_without_removes_witness :
    (runECPOps [ECPOp.add 3 1, ECPOp.set 3 false 2, ECPOp.set 3 true 3]
        (mkSG 1 [] (fun _ => true) 0)).fullyEnabled =
      allEnabled
        (runECPOps [ECPOp.add 3 1, ECPOp.set 3 false 2, ECPOp.set 3 true 3]
            (mkSG 1 [] (fun _ => true) 0)).members
        (runECPOps [ECPOp.add 3 1, ECPOp.set 3 false 2, ECPOp.set 3 true 3]
            (mkSG 1 [] (fun _ => true) 0)).store :=
  fullyEnabled_eq_conjunction_without_removes 1 [] (fun _ => true) 0
    [ECPOp.add 3 1, ECPOp.set 3 false 2, ECPOp.set 3 true 3] (by decide)

/-- C1 counterexample: construct a generator with one enable control
property (identifier 1) that reads false, then remove it.  The remaining
member set is [0] (locallyEnabled, reading true), so the claimed AND is
true, yet fullyEnabled still reads false: removal does not recompute. -/
theorem fullyEnabled_stale_after_remove_cex :
    (removeEnableControlProperty 1 (mkSG 1 [1] (fun n => n == 0) 0)).fullyEnabled = false ∧
      allEnabled (removeEnableControlProperty 1 (mkSG 1 [1] (fun n => n == 0) 0)).members
        (removeEnableControlProperty 1 (mkSG 1 [1] (fun n => n == 0) 0)).store = true :=
  ⟨rfl, rfl⟩

/-- C2 amended: removeEnableControlProperty removes one matching entry from
the member set (a no-op when the property is not a member) and unsubscribes
the aggregation listener — a subsequent flip of the removed property no
longer affects fullyEnabled — but it does NOT recompute the derived value:
fullyEnabled retains its pre-removal value, even when every remaining
member reads true. -/
theorem removeEnableControlProperty_unsubscribes_without_recompute (s : SG) (id : Nat) :
    (removeEnableControlProperty id s).fullyEnabled = s.fullyEnabled ∧
      (removeEnableControlProperty id s).members = s.members.erase id ∧
      (id ∉ s.members → removeEnableControlProperty id s = s) ∧
      (∀ b now, (s.members.erase id).contains id = false →
        (setProp id b now (removeEnableControlProperty id s)).fullyEnabled = s.fullyEnabled) := by
  refine ⟨rfl, rfl, ?_, ?_⟩
  · intro h
    unfold removeEnableControlProperty
    rw [List.erase_of_not_mem h]
  · intro b now h
    have h' : id ∉ s.members.erase id := by simpa using h
    unfold setProp removeEnableControlProperty
    by_cases h1 : s.store id = b
    · simp [h1]
    · simp [h1, h']

/-- C2 witness: removing property 5 (added at construction, reading true)
and then flipping it to false leaves fullyEnabled at its pre-removal
value. -/
theorem removeEnableControlProperty_unsubscribes_without_recompute_witness :
    (setProp 5 false 1 (removeEnableControlProperty 5 (mkSG 1 [5] (fun _ => true) 0))).fullyEnabled
      = (mkSG 1 [5] (fun _ => true) 0).fullyEnabled :=
  (removeEnableControlProperty_unsubscribes_without_recompute (mkSG 1 [5] (fun _ => true) 0) 5).2.2.2
    false 1 (by decide)

/-- C2 counterexample: after removing the false-valued member 2, every
remaining member property reads true, yet fullyEnabled does not read true
immediately after the removal: no recompute happens. -/
theorem remove_does_not_recompute_cex :
    allEnabled (removeEnableControlProperty 2 (mkSG 1 [2] (fun n => n == 0) 0)).members
        (removeEnableControlProperty 2 (mkSG 1 [2] (fun n => n == 0) 0)).store = true ∧
      (removeEnableControlProperty 2 (mkSG 1 [2] (fun n => n == 0) 0)).fullyEnabled = false :=
  ⟨rfl, rfl⟩

/-- C3 amended: connect(sink) appends exactly one matching entry to the
connection set (duplicates are recorded), but disconnect(sink) removes ALL
matching entries (lodash _.without semantics), so after connect(s);
connect(s); disconnect(s) the generator reports isConnectedTo(s) =
false. -/
theorem connection_bookkeeping (s : SG) (p : Nat) :
    (connect p s).connectionList.count p = s.connectionList.count p + 1 ∧
      isConnectedTo p (connect p s) = true ∧
      (disconnect p s).connectionList.count p = 0 ∧
      isConnectedTo p (disconnect p (connect p (connect p s))) = false := by
  refine ⟨?_, ?_, ?_, ?_⟩
  · simp [connect]
  · simp [isConnectedTo, connect]
  · simp [disconnect, List.count_eq_zero, List.mem_filter]
  · simp [isConnectedTo, disconnect, List.mem_filter]

/-- C3 counterexample: connect a sink twice, disconnect it once; the claim
predicts isConnectedTo still true, but the connection set is emptied of all
matching entries, so it reports false. -/
theorem duplicate_connection_cex :
    isConnectedTo 7 (disconnect 7 (connect 7 (connect 7 (mkSG 1 [] (fun _ => true) 0)))) = false :=
  rfl

/-- C4: for every SoundGenerator that is not fully enabled and every level
L, setOutputLevel(L, 0) updates the stored target — getOutputLevel
subsequently returns L — and leaves the gain schedule untouched (the
instantaneous audible gain unchanged, still silenced) unless L is exactly
0, in which case the gain is set to 0 immediately. -/
theorem setOutputLevel_immediate_while_disabled (s : SG) (L now : ℚ)
    (hdis : s.fullyEnabled = false) :
    getOutputLevel (setOutputLevel L (some 0) now s) = L ∧
      (L ≠ 0 → (setOutputLevel L (some 0) now s).gainLog = s.gainLog ∧
        ∀ t, scheduledGainAt (setOutputLevel L (some 0) now s).gainLog t
          = scheduledGainAt s.gainLog t) ∧
      (L = 0 →
        (setOutputLevel L (some 0) now s).gainLog = s.gainLog ++ [GainCmd.setValue 0 now] ∧
        scheduledGainAt (setOutputLevel L (some 0) now s).gainLog now = 0) := by
  refine ⟨rfl, ?_, ?_⟩
  · intro hL
    have hlog : (setOutputLevel L (some 0) now s).gainLog = s.gainLog := by
      simp [setOutputLevel, setOutputLevelCmds, hdis, hL]
    exact ⟨hlog, fun t => by rw [hlog]⟩
  · intro hL
    subst hL
    have hlog : (setOutputLevel 0 (some 0) now s).gainLog
        = s.gainLog ++ [GainCmd.setValue 0 now] := by
      simp [setOutputLevel, setOutputLevelCmds]
    refine ⟨hlog, ?_⟩
    rw [hlog]
    simp [scheduledGainAt, List.foldl_append, gainCmdValueAt]

/-- C4 witness: a disabled generator (enable control property 9 reads
false), level 1/2, time constant 0: the gain schedule is unchanged. -/
theorem setOutputLevel_immediate_while_disabled_witness :
    (setOutputLevel (1/2) (some 0) 4 (mkSG 1 [9] (fun n => n == 0) 0)).gainLog
      = (mkSG 1 [9] (fun n => n == 0) 0).gainLog :=
  ((setOutputLevel_immediate_while_disabled (mkSG 1 [9] (fun n => n == 0) 0) (1/2) 4
      (by decide)).2.1 (by norm_num)).1

theorem allEnabled_eq_false_of_mem (members : List Nat) (store : Nat → Bool) (id : Nat)
    (hm : id ∈ members) (hid : store id = false) :
    allEnabled members store = false := by
  unfold allEnabled
  cases hall : members.all store with
  | false => rfl
  | true =>
    have hx := List.all_eq_true.mp hall id hm
    rw [hid] at hx
    exact absurd hx (by simp)

theorem allEnabled_congr (members : List Nat) (f g : Nat → Bool)
    (h : ∀ id ∈ members, f id = g id) : allEnabled members f = allEnabled members g := by
  unfold allEnabled
  induction members with
  | nil => rfl
  | cons x xs ih =>
    simp only [List.all_cons, h x (List.mem_cons_self x xs),
      ih (fun i hi => h i (List.mem_cons_of_mem x hi))]

theorem scheduledGainAt_append_pin_ramp (log : List GainCmd) (a b t1 T : ℚ) :
    scheduledGainAt (log ++ [GainCmd.setValue a t1, GainCmd.linearRamp b T]) T = b := by
  simp [scheduledGainAt, List.foldl_append, gainCmdValueAt]

/-- C5: on every transition of fullyEnabled the generator first pins the
master gain at the current time to the nominal pre-transition level (0 when
becoming enabled, the output level when becoming disabled) and then
schedules a linear ramp to the post-transition level over the fixed
duration; consequently disabling (via locallyEnabled), calling
setOutputLevel(L) while disabled with any time constant, and re-enabling
leaves the audible gain at L once the ramp completes. -/
theorem enable_transition_pin_then_ramp
    (s0 : SG) (n0 : ℚ) (s : SG) (L : ℚ) (tc : Option ℚ) (n1 n2 n3 : ℚ)
    (hinv : EnabledInv s) (hen : s.fullyEnabled = true) (hmem : 0 ∈ s.members) :
    ((updateFullyEnabledState n0 s0).fullyEnabled ≠ s0.fullyEnabled →
      (updateFullyEnabledState n0 s0).gainLog = s0.gainLog ++
        [GainCmd.setValue
            (if (updateFullyEnabledState n0 s0).fullyEnabled then 0 else s0.outputLevel) n0,
         GainCmd.linearRamp
            (if (updateFullyEnabledState n0 s0).fullyEnabled then s0.outputLevel else 0)
            (n0 + DEFAULT_LINEAR_GAIN_CHANGE_TIME)]) ∧
      (setLocallyEnabled true n3 (setOutputLevel L tc n2 (setLocallyEnabled false n1 s))).fullyEnabled
        = true ∧
      (setLocallyEnabled true n3 (setOutputLevel L tc n2 (setLocallyEnabled false n1 s))).gainLog
        = (setOutputLevel L tc n2 (setLocallyEnabled false n1 s)).gainLog ++
          [GainCmd.setValue 0 n3,
           GainCmd.linearRamp L (n3 + DEFAULT_LINEAR_GAIN_CHANGE_TIME)] ∧
      scheduledGainAt
        (setLocallyEnabled true n3 (setOutputLevel L tc n2 (setLocallyEnabled false n1 s))).gainLog
        (n3 + DEFAULT_LINEAR_GAIN_CHANGE_TIME) = L := by
  have h0 : s.store 0 = true := by
    have hall : allEnabled s.members s.store = true := hinv.symm.trans hen
    have hx := List.all_eq_true.mp hall 0 hmem
    simpa using hx
  have hcont : s.members.contains 0 = true := (contains_eq_true_iff_mem _ _).mpr hmem
  have hall1 : allEnabled s.members (fun n => if n = 0 then false else s.store n) = false :=
    allEnabled_eq_false_of_mem _ _ 0 hmem (by simp)
  have hall2 : allEnabled s.members
      (fun n => if n = 0 then true else if n = 0 then false else s.store n) = true := by
    rw [allEnabled_congr s.members _ s.store
      (fun id hid => by by_cases hid0 : id = 0 <;> simp [hid0, h0])]
    exact hinv.symm.trans hen
  have hs1 : setLocallyEnabled false n1 s =
      { s with
        store := fun n => if n = 0 then false else s.store n,
        fullyEnabled := false,
        gainLog := s.gainLog ++ fullyEnabledListener false s.outputLevel n1 } := by
    unfold setLocallyEnabled setProp
    rw [if_neg (show ¬(s.store 0 = false) by simp [h0]), if_pos hcont]
    unfold updateFullyEnabledState
    dsimp only
    rw [hall1, hen]
    rfl
  have hs2 : setOutputLevel L tc n2 (setLocallyEnabled false n1 s) =
      { s with
        store := fun n => if n = 0 then false else s.store n,
        fullyEnabled := false,
        outputLevel := L,
        gainLog := (s.gainLog ++ fullyEnabledListener false s.outputLevel n1) ++
          setOutputLevelCmds L (tc.getD DEFAULT_PARAM_CHANGE_TIME_CONSTANT) n2 false } := by
    rw [hs1]
    rfl
  have hs3 : setLocallyEnabled true n3 (setOutputLevel L tc n2 (setLocallyEnabled false n1 s)) =
      { s with
        store := fun n => if n = 0 then true else if n = 0 then false else s.store n,
        fullyEnabled := true,
        outputLevel := L,
        gainLog := ((s.gainLog ++ fullyEnabledListener false s.outputLevel n1) ++
            setOutputLevelCmds L (tc.getD DEFAULT_PARAM_CHANGE_TIME_CONSTANT) n2 false) ++
          fullyEnabledListener true L n3 } := by
    rw [hs2]
    unfold setLocallyEnabled setProp
    rw [if_neg (show ¬((SG.mk (fun n => if n = 0 then false else s.store n) s.members false L
          ((s.gainLog ++ fullyEnabledListener false s.outputLevel n1) ++
            setOutputLevelCmds L (tc.getD DEFAULT_PARAM_CHANGE_TIME_CONSTANT) n2 false)
          s.connectionList).store 0 = true) by simp),
      if_pos (show (SG.mk (fun n => if n = 0 then false else s.store n) s.members false L
          ((s.gainLog ++ fullyEnabledListener false s.outputLevel n1) ++
            setOutputLevelCmds L (tc.getD DEFAULT_PARAM_CHANGE_TIME_CONSTANT) n2 false)
          s.connectionList).members.contains 0 = true from hcont)]
    unfold updateFullyEnabledState
    dsimp only
    rw [hall2]
    rfl
  have hlist : fullyEnabledListener true L n3 =
      [GainCmd.setValue 0 n3, GainCmd.linearRamp L (n3 + DEFAULT_LINEAR_GAIN_CHANGE_TIME)] :=
    rfl
  refine ⟨?_, ?_, ?_, ?_⟩
  · intro hch
    have hne : allEnabled s0.members s0.store ≠ s0.fullyEnabled := by
      simpa [updateFullyEnabledState] using hch
    simp [updateFullyEnabledState, fullyEnabledListener, hne]
  · rw [hs3]
  · rw [hs3, hs2, hlist]
  · rw [hs3, hlist]
    exact scheduledGainAt_append_pin_ramp _ 0 L n3 (n3 + DEFAULT_LINEAR_GAIN_CHANGE_TIME)

/-- C5 witness: a fresh generator with output level 2 is disabled at time
1, its level set to 3/4 at time 2 while disabled, and re-enabled at time 3;
after the fixed ramp duration the nominal gain is 3/4. -/
theorem enable_transition_pin_then_ramp_witness :
    scheduledGainAt
      (setLocallyEnabled true 3
        (setOutputLevel (3/4) none 2
          (setLocallyEnabled false 1 (mkSG 2 [] (fun _ => true) 0)))).gainLog
      (3 + DEFAULT_LINEAR_GAIN_CHANGE_TIME) = 3/4 :=
  (enable_transition_pin_then_ramp (mkSG 2 [] (fun _ => true) 0) 0
    (mkSG 2 [] (fun _ => true) 0) (3/4) none 1 2 3
    (EnabledInv_mkSG 2 [] (fun _ => true) 0) (by decide) (by decide)).2.2.2

/-- C6: constructing a SoundGenerator with a negative initialOutputLevel
fails with the precondition-violation error before any audio node is
created (the node count stays 0); construction with a non-negative level
succeeds, creating exactly one audio node, the master gain node. -/
theorem constructor_rejects_negative_level
    (level : ℚ) (props : List Nat) (store0 : Nat → Bool) (t0 : ℚ) :
    (level < 0 →
      mkSoundGenerator level props store0 t0
        = (0, Except.error "initial output level must be positive")) ∧
      (0 ≤ level →
        mkSoundGenerator level props store0 t0 = (1, Except.ok (mkSG level props store0 t0))) := by
  constructor
  · intro h
    simp [mkSoundGenerator, h]
  · intro h
    simp [mkSoundGenerator, not_lt.mpr h]

/-- C6 witness: initialOutputLevel -1/10 is rejected with zero audio nodes
created. -/
theorem constructor_rejects_negative_level_witness :
    mkSoundGenerator (-1/10) [] (fun _ => true) 0
      = (0, Except.error "initial output level must be positive") :=
  (constructor_rejects_negative_level (-1/10) [] (fun _ => true) 0).1 (by norm_num)

theorem playPop_sg (rp : ℚ) (d : Option ℚ) (now : ℚ) (p : PPG) : (playPop rp d now p).sg = p.sg := by
  unfold playPop
  split <;> rfl

theorem playPop_numPopGenerators (rp : ℚ) (d : Option ℚ) (now : ℚ) (p : PPG) :
    (playPop rp d now p).numPopGenerators = p.numPopGenerators := by
  unfold playPop
  split <;> rfl

theorem playPop_index_of_enabled (rp : ℚ) (d : Option ℚ) (now : ℚ) (p : PPG)
    (hen : p.sg.fullyEnabled = true) :
    (playPop rp d now p).nextSoundSourceIndex
      = (p.nextSoundSourceIndex + 1) % p.numPopGenerators := by
  unfold playPop
  rw [if_pos hen]

theorem playPop_voiceLog_of_enabled (rp : ℚ) (d : Option ℚ) (now : ℚ) (p : PPG)
    (hen : p.sg.fullyEnabled = true) :
    (playPop rp d now p).voiceLog = p.voiceLog ++
      popCmds p.nextSoundSourceIndex (p.pitchMin + rp * (p.pitchMax - p.pitchMin))
        (match d with
         | none => DEFAULT_POP_DURATION
         | some d0 => if d0 = 0 then DEFAULT_POP_DURATION else d0) now := by
  unfold playPop
  rw [if_pos hen]

theorem runPops_sg (calls : List PopCall) (p : PPG) : (runPops calls p).sg = p.sg := by
  induction calls generalizing p with
  | nil => rfl
  | cons c cs ih =>
    show (runPops cs (playPop c.relativePitch c.duration c.now p)).sg = p.sg
    rw [ih, playPop_sg]

theorem runPops_numPopGenerators (calls : List PopCall) (p : PPG) :
    (runPops calls p).numPopGenerators = p.numPopGenerators := by
  induction calls generalizing p with
  | nil => rfl
  | cons c cs ih =>
    show (runPops cs (playPop c.relativePitch c.duration c.now p)).numPopGenerators
      = p.numPopGenerators
    rw [ih, playPop_numPopGenerators]

theorem runPops_index (calls : List PopCall) (p : PPG)
    (hen : p.sg.fullyEnabled = true)
    (hred : p.nextSoundSourceIndex % p.numPopGenerators = p.nextSoundSourceIndex) :
    (runPops calls p).nextSoundSourceIndex
      = (p.nextSoundSourceIndex + calls.length) % p.numPopGenerators := by
  induction calls generalizing p with
  | nil =>
    show p.nextSoundSourceIndex = (p.nextSoundSourceIndex + 0) % p.numPopGenerators
    rw [Nat.add_zero, hred]
  | cons c cs ih =>
    show (runPops cs (playPop c.relativePitch c.duration c.now p)).nextSoundSourceIndex
      = (p.nextSoundSourceIndex + (cs.length + 1)) % p.numPopGenerators
    have hen' : (playPop c.relativePitch c.duration c.now p).sg.fullyEnabled = true := by
      rw [playPop_sg]; exact hen
    have hidx := playPop_index_of_enabled c.relativePitch c.duration c.now p hen
    have hred' : (playPop c.relativePitch c.duration c.now p).nextSoundSourceIndex %
        (playPop c.relativePitch c.duration c.now p).numPopGenerators
        = (playPop c.relativePitch c.duration c.now p).nextSoundSourceIndex := by
      rw [hidx, playPop_numPopGenerators, Nat.mod_mod_of_dvd _ dvd_rfl]
    rw [ih _ hen' hred', hidx, playPop_numPopGenerators, Nat.mod_add_mod]
    ring_nf

/-- C7: for a PitchedPopGenerator constructed with pool size N that
remains fully enabled, the round-robin cursor starts at 0, and the k-th
playPop call (0-indexed, relativePitch within [0,1]) finds the cursor at
k mod N and issues all of its voice commands to pooled voice k mod N,
advancing the cursor by one modulo N. -/
theorem playPop_round_robin
    (pitchMin pitchMax : ℚ) (N : Nat) (level : ℚ) (props : List Nat) (store0 : Nat → Bool)
    (t0 : ℚ) (calls : List PopCall) (k : Nat)
    (hN : 0 < N)
    (hen : (mkPPG pitchMin pitchMax N level props store0 t0).sg.fullyEnabled = true)
    (hk : k < calls.length)
    (hr : ∀ c ∈ calls, 0 ≤ c.relativePitch ∧ c.relativePitch ≤ 1) :
    (mkPPG pitchMin pitchMax N level props store0 t0).nextSoundSourceIndex = 0 ∧
      (runPops (calls.take k) (mkPPG pitchMin pitchMax N level props store0 t0)).nextSoundSourceIndex
        = k % N ∧
      ∃ cmds : List VoiceCmd, cmds ≠ [] ∧
        (runPops (calls.take (k + 1)) (mkPPG pitchMin pitchMax N level props store0 t0)).voiceLog
          = (runPops (calls.take k) (mkPPG pitchMin pitchMax N level props store0 t0)).voiceLog
            ++ cmds ∧
        ∀ c ∈ cmds, c.voice = k % N := by
  have htake : (calls.take k).length = k := by
    rw [List.length_take]
    exact min_eq_left hk.le
  have hidx :
      (runPops (calls.take k) (mkPPG pitchMin pitchMax N level props store0 t0)).nextSoundSourceIndex
        = k % N := by
    rw [runPops_index _ _ hen (by rw [Nat.zero_mod] : (0 : Nat) % N = 0), htake]
    show (0 + k) % N = k % N
    rw [Nat.zero_add]
  refine ⟨rfl, hidx, ?_⟩
  have htakesucc : calls.take (k + 1) = calls.take k ++ [calls.get ⟨k, hk⟩] := by
    rw [List.take_succ]
    simp [List.getElem?_eq_getElem hk]
  have hsplit :
      runPops (calls.take (k + 1)) (mkPPG pitchMin pitchMax N level props store0 t0)
        = playPop (calls.get ⟨k, hk⟩).relativePitch (calls.get ⟨k, hk⟩).duration
            (calls.get ⟨k, hk⟩).now
            (runPops (calls.take k) (mkPPG pitchMin pitchMax N level props store0 t0)) := by
    rw [htakesucc]
    unfold runPops
    rw [List.foldl_append]
    rfl
  have hen' :
      (runPops (calls.take k) (mkPPG pitchMin pitchMax N level props store0 t0)).sg.fullyEnabled
        = true := by
    rw [runPops_sg]; exact hen
  refine ⟨popCmds (k % N)
      ((runPops (calls.take k) (mkPPG pitchMin pitchMax N level props store0 t0)).pitchMin +
        (calls.get ⟨k, hk⟩).relativePitch *
          ((runPops (calls.take k) (mkPPG pitchMin pitchMax N level props store0 t0)).pitchMax -
            (runPops (calls.take k) (mkPPG pitchMin pitchMax N level props store0 t0)).pitchMin))
      (match (calls.get ⟨k, hk⟩).duration with
       | none => DEFAULT_POP_DURATION
       | some d0 => if d0 = 0 then DEFAULT_POP_DURATION else d0)
      (calls.get ⟨k, hk⟩).now, ?_, ?_, ?_⟩
  · simp [popCmds]
  · rw [hsplit, playPop_voiceLog_of_enabled _ _ _ _ hen', hidx]
  · intro c hc
    simp only [popCmds, List.mem_cons, List.not_mem_nil, or_false] at hc
    rcases hc with rfl | rfl | rfl | rfl | rfl | rfl <;> rfl

/-- C7 witness: pool size 3, five calls, k = 4: after four calls the cursor
is at 4 mod 3 = 1. -/
theorem playPop_round_robin_witness :
    (runPops (popCallsW.take 4) (mkPPG 220 660 3 1 [] (fun _ => true) 0)).nextSoundSourceIndex
      = 4 % 3 :=
  (playPop_round_robin 220 660 3 1 [] (fun _ => true) 0 popCallsW 4 (by norm_num)
    (by decide) (by decide) (by simp [popCallsW]; norm_num)).2.1

/-- C8: NoiseGenerator's play state machine is idempotent both ways:
start() while playing changes nothing and start() while stopped sets
isPlaying; stop() while stopped changes nothing and stop() while playing
clears isPlaying; hence start;start equals start and stop;stop equals
stop. -/
theorem noise_start_stop_idempotent (n : NoiseGen) :
    (n.isPlaying = true → n.start = n) ∧
      (n.isPlaying = false → n.start.isPlaying = true) ∧
      (n.isPlaying = false → n.stop = n) ∧
      (n.isPlaying = true → n.stop.isPlaying = false) ∧
      n.start.start = n.start ∧
      n.stop.stop = n.stop := by
  refine ⟨?_, ?_, ?_, ?_, ?_, ?_⟩
  · intro h
    simp [NoiseGen.start, h]
  · intro h
    simp [NoiseGen.start, h]
  · intro h
    simp [NoiseGen.stop, h]
  · intro h
    simp [NoiseGen.stop, h]
  · cases h : n.isPlaying
    · simp [NoiseGen.start, h]
    · simp [NoiseGen.start, h]
  · cases h : n.isPlaying
    · simp [NoiseGen.stop, h]
    · simp [NoiseGen.stop, h]

/-- C8 witness: starting a concrete stopped NoiseGenerator sets
isPlaying. -/
theorem noise_start_stop_idempotent_witness :
    noiseGenW.start.isPlaying = true :=
  (noise_start_stop_idempotent noiseGenW).2.1 rfl

/-- C9 (code bug): the stubbed audio context's createGain provides only
cancelScheduledValues, setTargetAtTime and setValueAtTime on its gain
AudioParam, but SoundGenerator's enable/disable listener also calls
linearRampToValueAtTime on masterGainNode.gain; on the stub that access
yields undefined and the call throws a TypeError instead of degrading to a
silent no-op, so not every audio call made by the generators is covered by
the stub. -/
theorem stub_gain_missing_linear_ramp :
    stubAudioParamCall stubGainParamMethods AudioParamMethod.linearRampToValueAtTime
      = Except.error "TypeError: not a function" ∧
      soundGeneratorGainParamCalls.all (fun m => stubGainParamMethods.contains m) = false :=
  ⟨rfl, rfl⟩

/-- C10: for every PitchedPopGenerator that is not fully enabled, playPop
with relativePitch in [0,1] is a complete no-op: the state — including the
round-robin cursor and the voice command log — is unchanged. -/
theorem playPop_noop_when_disabled (p : PPG) (rp : ℚ) (d : Option ℚ) (now : ℚ)
    (hdis : p.sg.fullyEnabled = false) (hlo : 0 ≤ rp) (hhi : rp ≤ 1) :
    playPop rp d now p = p := by
  unfold playPop
  rw [if_neg (by simp [hdis])]

/-- C10 witness: a disabled concrete generator ignores a playPop request
entirely. -/
theorem playPop_noop_when_disabled_witness :
    playPop (1/2) none 5 ppgDisabledW = ppgDisabledW :=
  playPop_noop_when_disabled ppgDisabledW (1/2) none 5 (by decide) (by norm_num) (by norm_num)

end Tambo
